import Mathlib

/-!
Shallow embedding of the glypto-go metadata-scraping core
(packages pkg/providers, pkg/metadata, pkg/scraper) in Lean 4.

DOM nodes follow golang.org/x/net/html: a node has a type, a tag or text
payload in Data, an attribute list, and children (FirstChild/NextSibling
chains are modelled as a child list). Go maps are modelled as association
lists with first-match lookup; Go nil pointers as Option; Go errors as
Except String.
-/

namespace Glypto

/-- Node types of golang.org/x/net/html.NodeType. -/
inductive NodeType where
  | ErrorNode
  | TextNode
  | DocumentNode
  | ElementNode
  | CommentNode
  | DoctypeNode
  | RawNode
deriving DecidableEq, Repr

/-- A DOM node: html.Node with Type, Data, Attr and the child chain as a list. -/
inductive HtmlNode where
  | node (type : NodeType) (data : String) (attr : List (String × String))
      (children : List HtmlNode)
deriving Repr

def HtmlNode.type : HtmlNode → NodeType
  | .node t _ _ _ => t

def HtmlNode.data : HtmlNode → String
  | .node _ d _ _ => d

def HtmlNode.attr : HtmlNode → List (String × String)
  | .node _ _ a _ => a

def HtmlNode.children : HtmlNode → List HtmlNode
  | .node _ _ _ c => c

/-- First-match attribute lookup over an attribute list (BaseProvider.getAttribute,
also Scraper.getAttribute: return Val of the first Attr whose Key matches, else empty). -/
def getAttrList (key : String) : List (String × String) → String
  | [] => ""
  | (k, v) :: rest => if k = key then v else getAttrList key rest

def getAttribute (n : HtmlNode) (key : String) : String :=
  getAttrList key n.attr

/-- Scraper.hasAttribute: whether any attribute has the given key. -/
def hasAttrList (key : String) : List (String × String) → Bool
  | [] => false
  | (k, _) :: rest => if k = key then true else hasAttrList key rest

def hasAttribute (n : HtmlNode) (key : String) : Bool :=
  hasAttrList key n.attr

/-- Space predicate of Go unicode.IsSpace restricted to the characters that can
occur in the latin range (the claims never depend on exotic whitespace). -/
def isGoSpace (c : Char) : Bool :=
  c = ' ' || c = '\t' || c = '\n' || c = Char.ofNat 11 || c = Char.ofNat 12 ||
    c = '\r' || c = Char.ofNat 0x85 || c = Char.ofNat 0xA0

/-- strings.TrimSpace. -/
def goTrimSpace (s : String) : String :=
  String.mk (((s.toList.dropWhile isGoSpace).reverse.dropWhile isGoSpace).reverse)

/-- strings.HasPrefix. Go compares byte prefixes; on the character lists of valid
UTF-8 strings this is the same relation. -/
def goHasPfx (s pfx : String) : Bool :=
  pfx.toList.isPrefixOf s.toList

/-- strings.TrimPrefix: drop the prefix when present, else return s unchanged. -/
def goTrimPfx (s pfx : String) : String :=
  if goHasPfx s pfx then String.mk (s.toList.drop pfx.toList.length) else s

mutual

/-- BaseProvider.getTextContent: a text node contributes Data verbatim; any other
node concatenates the text of its children and trims the concatenation. -/
def getTextContent : HtmlNode → String
  | .node t d _ children =>
    if t = NodeType.TextNode then d else goTrimSpace (getTextList children)

def getTextList : List HtmlNode → String
  | [] => ""
  | c :: cs => getTextContent c ++ getTextList cs

end

/-- metadata.ScrapedData. -/
structure ScrapedData where
  key : String
  value : String
deriving DecidableEq, Repr

/-- One partition of provider data: Go map[string][]string as an association list. -/
abbrev DataMap := List (String × List String)

/-- metadata.ProviderData: provider name to partition. -/
abbrev ProviderData := List (String × DataMap)

/-- metadata.MetadataProvider interface, as a record of its five methods. -/
structure MetadataProvider where
  name : String
  priority : Int
  canHandle : HtmlNode → Bool
  scrape : HtmlNode → Option ScrapedData
  getValue : String → DataMap → Option String

instance : Inhabited MetadataProvider :=
  ⟨{ name := "", priority := 0, canHandle := fun _ => false,
     scrape := fun _ => none, getValue := fun _ _ => none }⟩

/-- BaseProvider.GetValue: first element of the value list bound to the key,
when that list exists and is non-empty. -/
def baseGetValue (key : String) (data : DataMap) : Option String :=
  match data.lookup key with
  | some values => if values.length > 0 then some values.head! else none
  | none => none

/-- BaseProvider.scrapeMetaTag: property falling back to name when empty, paired
with content; nothing when either is empty; the given prefix string is trimmed
from the selected attribute to form the key. -/
def scrapeMetaTag (node : HtmlNode) (pfxToRemove : String) : Option ScrapedData :=
  let property := getAttribute node "property"
  let property := if property = "" then getAttribute node "name" else property
  let content := getAttribute node "content"
  if property = "" || content = "" then none
  else some { key := goTrimPfx property pfxToRemove, value := content }

def ogPfx : String := "og:"

def twitterPfx : String := "twitter:"

/-- OpenGraphProvider.CanHandle. -/
def openGraphCanHandle (node : HtmlNode) : Bool :=
  if node.type ≠ NodeType.ElementNode || node.data ≠ "meta" then false
  else goHasPfx (getAttribute node "property") ogPfx ||
    goHasPfx (getAttribute node "name") ogPfx

/-- OpenGraphProvider.Scrape. -/
def openGraphScrape (node : HtmlNode) : Option ScrapedData :=
  if !openGraphCanHandle node then none else scrapeMetaTag node ogPfx

/-- OpenGraphProvider (name openGraph, priority 1). -/
def openGraphProvider : MetadataProvider :=
  { name := "openGraph", priority := 1, canHandle := openGraphCanHandle,
    scrape := openGraphScrape, getValue := baseGetValue }

/-- TwitterProvider.CanHandle. -/
def twitterCanHandle (node : HtmlNode) : Bool :=
  if node.type ≠ NodeType.ElementNode || node.data ≠ "meta" then false
  else goHasPfx (getAttribute node "property") twitterPfx ||
    goHasPfx (getAttribute node "name") twitterPfx

/-- TwitterProvider.Scrape. -/
def twitterScrape (node : HtmlNode) : Option ScrapedData :=
  if !twitterCanHandle node then none else scrapeMetaTag node twitterPfx

/-- TwitterProvider (name twitter, priority 2). -/
def twitterProvider : MetadataProvider :=
  { name := "twitter", priority := 2, canHandle := twitterCanHandle,
    scrape := twitterScrape, getValue := baseGetValue }

/-- StandardMetaProvider.CanHandle. -/
def standardMetaCanHandle (node : HtmlNode) : Bool :=
  if node.type ≠ NodeType.ElementNode || node.data ≠ "meta" then false
  else
    let name := getAttribute node "name"
    let property := getAttribute node "property"
    (name ≠ "" || property ≠ "") &&
      !goHasPfx name ogPfx && !goHasPfx name twitterPfx &&
      !goHasPfx property ogPfx && !goHasPfx property twitterPfx

/-- StandardMetaProvider.Scrape. -/
def standardMetaScrape (node : HtmlNode) : Option ScrapedData :=
  if !standardMetaCanHandle node then none else scrapeMetaTag node ""

/-- StandardMetaProvider (name meta, priority 3). -/
def standardMetaProvider : MetadataProvider :=
  { name := "meta", priority := 3, canHandle := standardMetaCanHandle,
    scrape := standardMetaScrape, getValue := baseGetValue }

/-- OtherElementsProvider.CanHandle. -/
def otherElementsCanHandle (node : HtmlNode) : Bool :=
  if node.type ≠ NodeType.ElementNode then false
  else if node.data = "title" || node.data = "h1" then true
  else if node.data = "link" then
    let rel := getAttribute node "rel"
    rel = "icon" || rel = "shortcut icon" || rel = "canonical"
  else false

/-- OtherElementsProvider.Scrape. -/
def otherElementsScrape (node : HtmlNode) : Option ScrapedData :=
  if !otherElementsCanHandle node then none
  else if node.data = "title" then
    let content := getTextContent node
    if content ≠ "" then some { key := "title", value := content } else none
  else if node.data = "h1" then
    let content := getTextContent node
    if content ≠ "" then some { key := "firstHeading", value := content } else none
  else if node.data = "link" then
    let rel := getAttribute node "rel"
    let href := getAttribute node "href"
    if rel ≠ "" && href ≠ "" then
      if rel = "icon" || rel = "shortcut icon" then
        some { key := rel, value := href }
      else if rel = "canonical" then
        some { key := "url", value := href }
      else none
    else none
  else none

/-- OtherElementsProvider (name other, priority 4). -/
def otherElementsProvider : MetadataProvider :=
  { name := "other", priority := 4, canHandle := otherElementsCanHandle,
    scrape := otherElementsScrape, getValue := baseGetValue }

/-! Embedding of Go sort.Slice (stdlib pdqsort, Go 1.19+), which NewRegistry and
AddProvider delegate to. Indices are absolute positions into the array; data.Less
and data.Swap become lessIdx and swapIdx. Loops are modelled as fuel recursion;
every call site supplies fuel exceeding the loop bound, so the embedding agrees
with the Go loop on all inputs. -/

/-- data.Less on indices. -/
def lessIdx (lt : α → α → Bool) (arr : Array α) (i j : Nat) : Bool :=
  match arr[i]?, arr[j]? with
  | some x, some y => lt x y
  | _, _ => false

/-- data.Swap on indices. -/
def swapIdx [Inhabited α] (arr : Array α) (i j : Nat) : Array α :=
  let x := arr.get! i
  let y := arr.get! j
  (arr.set! i y).set! j x

/-- Inner loop of insertionSortCmpFunc: shift element j left while it is less
than its left neighbour and j stays above a. -/
def isortShift (lt : α → α → Bool) [Inhabited α] (arr : Array α) (a : Nat) : Nat → Array α
  | 0 => arr
  | j+1 =>
    if a < j+1 && lessIdx lt arr (j+1) j then
      isortShift lt (swapIdx arr (j+1) j) a j
    else arr

def isortOuter (lt : α → α → Bool) [Inhabited α] : Nat → Array α → Nat → Nat → Nat → Array α
  | 0, arr, _, _, _ => arr
  | fuel+1, arr, a, i, b =>
    if i < b then isortOuter lt fuel (isortShift lt arr a i) a (i+1) b else arr

/-- insertionSortCmpFunc on the half-open range [a, b). -/
def insertionSortGo (lt : α → α → Bool) [Inhabited α] (arr : Array α) (a b : Nat) : Array α :=
  isortOuter lt (b + 1 - a) arr a (a+1) b

/-- siftDownCmpFunc. -/
def siftDownGo (lt : α → α → Bool) [Inhabited α] : Nat → Array α → Nat → Nat → Nat → Array α
  | 0, arr, _, _, _ => arr
  | fuel+1, arr, root, hi, first =>
    let child := 2*root + 1
    if child ≥ hi then arr
    else
      let child :=
        if child + 1 < hi && lessIdx lt arr (first+child) (first+child+1) then child + 1
        else child
      if !lessIdx lt arr (first+root) (first+child) then arr
      else siftDownGo lt fuel (swapIdx arr (first+root) (first+child)) child hi first

def heapBuild (lt : α → α → Bool) [Inhabited α] (hi first : Nat) : Nat → Array α → Array α
  | 0, arr => arr
  | i+1, arr => heapBuild lt hi first i (siftDownGo lt (hi+1) arr i hi first)

def heapPop (lt : α → α → Bool) [Inhabited α] (first : Nat) : Nat → Array α → Array α
  | 0, arr => arr
  | i+1, arr =>
    let arr := swapIdx arr first (first+i)
    heapPop lt first i (siftDownGo lt (i+1) arr 0 i first)

/-- heapSortCmpFunc on [a, b). -/
def heapSortGo (lt : α → α → Bool) [Inhabited α] (arr : Array α) (a b : Nat) : Array α :=
  let first := a
  let hi := b - a
  let arr := heapBuild lt hi first ((hi - 1)/2 + 1) arr
  heapPop lt first hi arr

/-- reverseRangeCmpFunc, entered with i = a and j = b-1. -/
def reverseRangeGo [Inhabited α] : Nat → Array α → Nat → Nat → Array α
  | 0, arr, _, _ => arr
  | fuel+1, arr, i, j =>
    if i < j then reverseRangeGo fuel (swapIdx arr i j) (i+1) (j-1) else arr

/-- sortedHint of the sort package. -/
inductive SortHint where
  | increasing
  | decreasing
  | unknown
deriving DecidableEq, Repr

/-- order2CmpFunc: returns the two indices with the lesser element first, counting swaps. -/
def order2Go (lt : α → α → Bool) (arr : Array α) (a b swaps : Nat) : Nat × Nat × Nat :=
  if lessIdx lt arr b a then (b, a, swaps + 1) else (a, b, swaps)

/-- medianCmpFunc: index of the median of three, plus the updated swap count. -/
def medianGo (lt : α → α → Bool) (arr : Array α) (a b c swaps : Nat) : Nat × Nat :=
  let (a, b, swaps) := order2Go lt arr a b swaps
  let (b, _, swaps) := order2Go lt arr b c swaps
  let (_, b, swaps) := order2Go lt arr a b swaps
  (b, swaps)

/-- medianAdjacentCmpFunc. -/
def medianAdjGo (lt : α → α → Bool) (arr : Array α) (a swaps : Nat) : Nat × Nat :=
  medianGo lt arr (a-1) a (a+1) swaps

/-- choosePivotCmpFunc: median-of-three (ninther for length at least 50) with a
sortedness hint derived from the swap count. -/
def choosePivotGo (lt : α → α → Bool) (arr : Array α) (a b : Nat) : Nat × SortHint :=
  let l := b - a
  let i := a + l/4*1
  let j := a + l/4*2
  let k := a + l/4*3
  let (j, swaps) :=
    if l ≥ 8 then
      let (i, j, k, swaps) :=
        if l ≥ 50 then
          let (i, s) := medianAdjGo lt arr i 0
          let (j, s) := medianAdjGo lt arr j s
          let (k, s) := medianAdjGo lt arr k s
          (i, j, k, s)
        else (i, j, k, 0)
      medianGo lt arr i j k swaps
    else (j, 0)
  if swaps = 0 then (j, SortHint.increasing)
  else if swaps = 12 then (j, SortHint.decreasing)
  else (j, SortHint.unknown)

/-- Scan of partialInsertionSortCmpFunc: advance i while the element is not less
than its left neighbour. -/
def paisAdvance (lt : α → α → Bool) (arr : Array α) (b : Nat) : Nat → Nat → Nat
  | 0, i => i
  | fuel+1, i =>
    if i < b && !lessIdx lt arr i (i-1) then paisAdvance lt arr b fuel (i+1) else i

def paisShiftLeft (lt : α → α → Bool) [Inhabited α] : Nat → Array α → Nat → Array α
  | 0, arr, _ => arr
  | fuel+1, arr, j =>
    if j ≥ 1 then
      if !lessIdx lt arr j (j-1) then arr
      else paisShiftLeft lt fuel (swapIdx arr j (j-1)) (j-1)
    else arr

def paisShiftRight (lt : α → α → Bool) [Inhabited α] (b : Nat) : Nat → Array α → Nat → Array α
  | 0, arr, _ => arr
  | fuel+1, arr, j =>
    if j < b then
      if !lessIdx lt arr j (j-1) then arr
      else paisShiftRight lt b fuel (swapIdx arr j (j-1)) (j+1)
    else arr

def paisSteps (lt : α → α → Bool) [Inhabited α] (a b : Nat) : Nat → Array α → Nat → Array α × Bool
  | 0, arr, _ => (arr, false)
  | steps+1, arr, i =>
    let i := paisAdvance lt arr b (b + 2) i
    if i = b then (arr, true)
    else if b - a < 50 then (arr, false)
    else
      let arr := swapIdx arr i (i-1)
      let arr := if i - a ≥ 2 then paisShiftLeft lt (i + 1) arr (i-1) else arr
      let arr := if b - i ≥ 2 then paisShiftRight lt b (b + 1) arr (i+1) else arr
      paisSteps lt a b steps arr i

/-- partialInsertionSortCmpFunc: at most 5 adjacent out-of-order pairs are fixed;
returns true when the range ends up sorted. -/
def paisGo (lt : α → α → Bool) [Inhabited α] (arr : Array α) (a b : Nat) : Array α × Bool :=
  paisSteps lt a b 5 arr (a+1)

/-- math bits.Len on a uint. -/
def bitsLen (n : Nat) : Nat :=
  if n = 0 then 0 else Nat.log2 n + 1

/-- xorshift.Next of the sort package, on uint64. -/
def xorshiftNext (r : Nat) : Nat :=
  let r := (r ^^^ (r <<< 13)) % 2^64
  let r := r ^^^ (r >>> 7)
  (r ^^^ (r <<< 17)) % 2^64

/-- breakPatternsCmpFunc: swap three elements near the middle with pseudo-random
positions, seeding the xorshift generator with the range length. -/
def breakPatternsGo [Inhabited α] (arr : Array α) (a b : Nat) : Array α :=
  let length := b - a
  if length ≥ 8 then
    let modulus := 1 <<< bitsLen length
    let idx := a + (length / 4) * 2 - 1
    let r1 := xorshiftNext length
    let o1 := r1 &&& (modulus - 1)
    let o1 := if o1 ≥ length then o1 - length else o1
    let arr := swapIdx arr (idx - 1 + 0) (a + o1)
    let r2 := xorshiftNext r1
    let o2 := r2 &&& (modulus - 1)
    let o2 := if o2 ≥ length then o2 - length else o2
    let arr := swapIdx arr (idx - 1 + 1) (a + o2)
    let r3 := xorshiftNext r2
    let o3 := r3 &&& (modulus - 1)
    let o3 := if o3 ≥ length then o3 - length else o3
    swapIdx arr (idx - 1 + 2) (a + o3)
  else arr

/-- Scan of partitionCmpFunc: advance i while the element is less than the pivot at aIdx. -/
def scanLtGo (lt : α → α → Bool) (arr : Array α) (aIdx : Nat) : Nat → Nat → Nat → Nat
  | 0, i, _ => i
  | fuel+1, i, j =>
    if i ≤ j && lessIdx lt arr i aIdx then scanLtGo lt arr aIdx fuel (i+1) j else i

/-- Scan of partitionCmpFunc: retreat j while the element is not less than the pivot. -/
def scanGeGo (lt : α → α → Bool) (arr : Array α) (aIdx : Nat) : Nat → Nat → Nat → Nat
  | 0, _, j => j
  | fuel+1, i, j =>
    if i ≤ j && !lessIdx lt arr j aIdx then scanGeGo lt arr aIdx fuel i (j-1) else j

def partitionLoop (lt : α → α → Bool) [Inhabited α] (aIdx : Nat) :
    Nat → Array α → Nat → Nat → Array α × Nat
  | 0, arr, _, j => (arr, j)
  | fuel+1, arr, i, j =>
    let n := arr.size + 2
    let i := scanLtGo lt arr aIdx n i j
    let j := scanGeGo lt arr aIdx n i j
    if i > j then (arr, j)
    else partitionLoop lt aIdx fuel (swapIdx arr i j) (i+1) (j-1)

/-- partitionCmpFunc on [a, b) with the given pivot index: returns the array, the
new pivot position, and whether the range was already partitioned. -/
def partitionGo (lt : α → α → Bool) [Inhabited α] (arr : Array α) (a b pivot : Nat) :
    Array α × Nat × Bool :=
  let arr := swapIdx arr a pivot
  let n := arr.size + 2
  let i := scanLtGo lt arr a n (a+1) (b-1)
  let j := scanGeGo lt arr a n i (b-1)
  if i > j then
    (swapIdx arr j a, j, true)
  else
    let arr := swapIdx arr i j
    let (arr, j2) := partitionLoop lt a n arr (i+1) (j-1)
    (swapIdx arr j2 a, j2, false)

def scanEqLGo (lt : α → α → Bool) (arr : Array α) (aIdx : Nat) : Nat → Nat → Nat → Nat
  | 0, i, _ => i
  | fuel+1, i, j =>
    if i ≤ j && !lessIdx lt arr aIdx i then scanEqLGo lt arr aIdx fuel (i+1) j else i

def scanEqRGo (lt : α → α → Bool) (arr : Array α) (aIdx : Nat) : Nat → Nat → Nat → Nat
  | 0, _, j => j
  | fuel+1, i, j =>
    if i ≤ j && lessIdx lt arr aIdx j then scanEqRGo lt arr aIdx fuel i (j-1) else j

def partitionEqualLoop (lt : α → α → Bool) [Inhabited α] (aIdx : Nat) :
    Nat → Array α → Nat → Nat → Array α × Nat
  | 0, arr, i, _ => (arr, i)
  | fuel+1, arr, i, j =>
    let n := arr.size + 2
    let i := scanEqLGo lt arr aIdx n i j
    let j := scanEqRGo lt arr aIdx n i j
    if i > j then (arr, i)
    else partitionEqualLoop lt aIdx fuel (swapIdx arr i j) (i+1) (j-1)

/-- partitionEqualCmpFunc: move elements equal to the pivot to the front of [a, b). -/
def partitionEqualGo (lt : α → α → Bool) [Inhabited α] (arr : Array α) (a b pivot : Nat) :
    Array α × Nat :=
  let arr := swapIdx arr a pivot
  partitionEqualLoop lt a (arr.size + 2) arr (a+1) (b-1)

/-- pdqsortCmpFunc. The Go function is a loop with two local flags and one true
recursive call per iteration; both the loop iteration and the recursive call are
modelled as recursion on fuel (each loop iteration strictly shrinks b - a, so any
fuel above the initial length suffices). -/
def pdqsortLoop (lt : α → α → Bool) [Inhabited α] :
    Nat → Array α → Nat → Nat → Nat → Bool → Bool → Array α
  | 0, arr, _, _, _, _, _ => arr
  | fuel+1, arr, a, b, limit, wasBalanced, wasPartitioned =>
    let length := b - a
    if length ≤ 12 then insertionSortGo lt arr a b
    else if limit = 0 then heapSortGo lt arr a b
    else
      let (arr, limit) :=
        if !wasBalanced then (breakPatternsGo arr a b, limit - 1) else (arr, limit)
      let (pivot, hint) := choosePivotGo lt arr a b
      let (arr, pivot, hint) :=
        if hint = SortHint.decreasing then
          (reverseRangeGo (b + 1) arr a (b-1), (b - 1) - (pivot - a), SortHint.increasing)
        else (arr, pivot, hint)
      let (arr, sortedEarly) :=
        if wasBalanced && wasPartitioned && hint = SortHint.increasing then
          paisGo lt arr a b
        else (arr, false)
      if sortedEarly then arr
      else if a > 0 && !lessIdx lt arr (a-1) pivot then
        let (arr, mid) := partitionEqualGo lt arr a b pivot
        pdqsortLoop lt fuel arr mid b limit wasBalanced wasPartitioned
      else
        let (arr, mid, alreadyPartitioned) := partitionGo lt arr a b pivot
        let wasPartitioned := alreadyPartitioned
        let leftLen := mid - a
        let rightLen := b - mid
        let balanceThreshold := length / 8
        let wasBalanced := decide (min leftLen rightLen ≥ balanceThreshold)
        if leftLen < rightLen then
          let arr := pdqsortLoop lt fuel arr a mid limit true true
          pdqsortLoop lt fuel arr (mid+1) b limit wasBalanced wasPartitioned
        else
          let arr := pdqsortLoop lt fuel arr (mid+1) b limit true true
          pdqsortLoop lt fuel arr a mid limit wasBalanced wasPartitioned

/-- sort.Slice: limit is bits.Len of the length, then pdqsort over the whole array. -/
def sortSliceGo [Inhabited α] (arr : Array α) (lt : α → α → Bool) : Array α :=
  let length := arr.size
  let limit := bitsLen length
  pdqsortLoop lt (length + limit + 16) arr 0 length limit true true

/-! Provider registry (ProviderRegistry of pkg/providers). -/

/-- ProviderRegistry: the ordered provider collection. -/
structure ProviderRegistry where
  providers : List MetadataProvider

/-- The less function NewRegistry and AddProvider pass to sort.Slice. -/
def ltPriority (p q : MetadataProvider) : Bool :=
  decide (p.priority < q.priority)

/-- NewRegistry: copy the input list and sort it by priority with sort.Slice. -/
def NewRegistry (providers : List MetadataProvider) : ProviderRegistry :=
  ⟨(sortSliceGo providers.toArray ltPriority).toList⟩

/-- ProviderRegistry.GetProviders. -/
def GetProviders (r : ProviderRegistry) : List MetadataProvider :=
  r.providers

/-- metadata.ScrapingResult. -/
structure ScrapingResult where
  provider : MetadataProvider
  data : ScrapedData

/-- Loop body of ProviderRegistry.ScrapeFromElement: for each provider in order,
if CanHandle then Scrape; a non-nil scrape returns immediately, otherwise the
loop continues with the remaining providers. -/
def scrapeFromList (node : HtmlNode) : List MetadataProvider → Option ScrapingResult
  | [] => none
  | p :: rest =>
    if p.canHandle node then
      match p.scrape node with
      | some d => some ⟨p, d⟩
      | none => scrapeFromList node rest
    else scrapeFromList node rest

/-- ProviderRegistry.ScrapeFromElement. -/
def ScrapeFromElement (r : ProviderRegistry) (node : HtmlNode) : Option ScrapingResult :=
  scrapeFromList node r.providers

/-- Loop body of ProviderRegistry.ResolveValue. -/
def resolveFromList (key : String) (providerData : ProviderData) :
    List MetadataProvider → Option String
  | [] => none
  | p :: rest =>
    match providerData.lookup p.name with
    | some data =>
      match p.getValue key data with
      | some v => some v
      | none => resolveFromList key providerData rest
    | none => resolveFromList key providerData rest

/-- ProviderRegistry.ResolveValue. -/
def ResolveValue (r : ProviderRegistry) (key : String) (providerData : ProviderData) :
    Option String :=
  resolveFromList key providerData r.providers

/-- ProviderRegistry.AddProvider: append, then re-sort with sort.Slice. -/
def AddProvider (r : ProviderRegistry) (p : MetadataProvider) : ProviderRegistry :=
  ⟨(sortSliceGo (r.providers ++ [p]).toArray ltPriority).toList⟩

/-! Loader (pkg/providers/loader.go) and scraper factory (pkg/scraper/factory.go). -/

/-- Loader.defaultProviders, also Loader.LoadDefaults. -/
def defaultProviders : List MetadataProvider :=
  [openGraphProvider, twitterProvider, standardMetaProvider, otherElementsProvider]

/-- The name-to-constructor map of Loader.LoadFromList. -/
def providerMap : List (String × MetadataProvider) :=
  [("openGraph", openGraphProvider), ("twitter", twitterProvider),
   ("meta", standardMetaProvider), ("other", otherElementsProvider)]

/-- Loop of Loader.LoadFromList: look each name up, appending hits, failing on the
first unknown name. -/
def loadFromListLoop (acc : List MetadataProvider) :
    List String → Except String (List MetadataProvider)
  | [] => .ok acc
  | n :: rest =>
    match providerMap.lookup n with
    | some p => loadFromListLoop (acc ++ [p]) rest
    | none => .error ("unknown provider: " ++ n)

/-- Loader.LoadFromList: after the loop, an empty result falls back to the defaults. -/
def LoadFromList (providerNames : List String) : Except String (List MetadataProvider) :=
  match loadFromListLoop [] providerNames with
  | .ok providers => if providers.length = 0 then .ok defaultProviders else .ok providers
  | .error e => .error e

/-- scraper.Scraper: holds the registry (doc and result are per-call transient state,
modelled as arguments and return values of ScraperScrape). -/
structure Scraper where
  registry : ProviderRegistry

/-- scraper.NewScraper. -/
def NewScraper (registry : ProviderRegistry) : Scraper :=
  ⟨registry⟩

/-- scraper.CreateScraperWithProviderNames. -/
def CreateScraperWithProviderNames (providerNames : List String) : Except String Scraper :=
  match LoadFromList providerNames with
  | .error e => .error e
  | .ok providerList => .ok (NewScraper (NewRegistry providerList))

/-! Metadata result (pkg/metadata/metadata.go). -/

/-- metadata.Feed. -/
structure Feed where
  title : Option String
  type : String
  href : String
deriving DecidableEq, Repr

/-- Go map assignment on an association list: replace the existing binding or append. -/
def assocSet {β : Type} : List (String × β) → String → β → List (String × β)
  | [], k, v => [(k, v)]
  | (k₁, w) :: rest, k, v =>
    if k₁ = k then (k, v) :: rest else (k₁, w) :: assocSet rest k v

/-- metadata.Metadata: provider data partitions, the registry (nil-able), feeds. -/
structure Metadata where
  providerData : ProviderData
  registry : Option ProviderRegistry
  feeds : List Feed

/-- metadata.NewMetadata: one empty partition per registered provider. -/
def NewMetadata (registry : ProviderRegistry) : Metadata :=
  { providerData := registry.providers.foldl (fun pd p => assocSet pd p.name []) [],
    registry := some registry,
    feeds := [] }

/-- Metadata.AddData: append the value to the list at partition[providerName][key],
creating the partition when absent. -/
def Metadata.AddData (m : Metadata) (providerName key value : String) : Metadata :=
  let data := (m.providerData.lookup providerName).getD []
  let newData := assocSet data key (((data.lookup key).getD []) ++ [value])
  { m with providerData := assocSet m.providerData providerName newData }

/-- Metadata.resolveValue: delegate to the registry, nothing when the registry is nil. -/
def Metadata.resolveValue (m : Metadata) (key : String) : Option String :=
  match m.registry with
  | none => none
  | some r => ResolveValue r key m.providerData

/-- Metadata.Favicon. -/
def Metadata.Favicon (m : Metadata) : String :=
  match m.resolveValue "icon" with
  | some icon => icon
  | none =>
    match m.resolveValue "shortcut icon" with
    | some shortcutIcon => shortcutIcon
    | none => "/favicon.ico"

/-- Metadata.Title. -/
def Metadata.Title (m : Metadata) : Option String :=
  match m.resolveValue "title" with
  | some title => some title
  | none => m.resolveValue "firstHeading"

/-! Scraping engine (pkg/scraper/scraper.go). -/

mutual

/-- Scraper.walkNodes: apply fn to the node; when it returns true, recurse into the
children in order. State threaded through fn models the mutation of the result. -/
def walkNodes {σ : Type} (fn : σ → HtmlNode → σ × Bool) (st : σ) : HtmlNode → σ
  | .node t d a children =>
    let r := fn st (.node t d a children)
    if r.2 then walkNodesList fn r.1 children else r.1

def walkNodesList {σ : Type} (fn : σ → HtmlNode → σ × Bool) (st : σ) : List HtmlNode → σ
  | [] => st
  | c :: cs => walkNodesList fn (walkNodes fn st c) cs

end

/-- Scraper.scrapeFromElement: offer the node to the registry, record a hit under
the provider name. -/
def scrapeFromElementS (r : ProviderRegistry) (m : Metadata) (node : HtmlNode) : Metadata :=
  match ScrapeFromElement r node with
  | some extraction =>
    m.AddData extraction.provider.name extraction.data.key extraction.data.value
  | none => m

/-- Scraper.scrapeMetaTags. -/
def scrapeMetaTagsS (r : ProviderRegistry) (doc : HtmlNode) (m : Metadata) : Metadata :=
  walkNodes (fun m n =>
    (if n.type = NodeType.ElementNode ∧ n.data = "meta" then scrapeFromElementS r m n else m,
     true)) m doc

/-- Scraper.scrapeTitleTag. -/
def scrapeTitleTagS (r : ProviderRegistry) (doc : HtmlNode) (m : Metadata) : Metadata :=
  walkNodes (fun m n =>
    (if n.type = NodeType.ElementNode ∧ n.data = "title" then scrapeFromElementS r m n else m,
     true)) m doc

/-- Scraper.scrapeHeadingTags. -/
def scrapeHeadingTagsS (r : ProviderRegistry) (doc : HtmlNode) (m : Metadata) : Metadata :=
  walkNodes (fun m n =>
    (if n.type = NodeType.ElementNode ∧ n.data = "h1" then scrapeFromElementS r m n else m,
     true)) m doc

/-- Scraper.scrapeLinkTags. -/
def scrapeLinkTagsS (r : ProviderRegistry) (doc : HtmlNode) (m : Metadata) : Metadata :=
  walkNodes (fun m n =>
    (if n.type = NodeType.ElementNode ∧ n.data = "link" ∧ hasAttribute n "rel" = true then
       scrapeFromElementS r m n
     else m, true)) m doc

/-- Visitor of Scraper.scrapeFeedLinks: a link element with rel equal to alternate
and a non-empty href appends one Feed (title only when non-empty). -/
def feedVisit (m : Metadata) (n : HtmlNode) : Metadata × Bool :=
  (if n.type = NodeType.ElementNode ∧ n.data = "link" then
     let rel := getAttribute n "rel"
     if rel = "alternate" then
       let title := getAttribute n "title"
       let feedType := getAttribute n "type"
       let href := getAttribute n "href"
       if href ≠ "" then
         { m with feeds := m.feeds ++
             [{ title := if title ≠ "" then some title else none,
                type := feedType, href := href }] }
       else m
     else m
   else m, true)

/-- Scraper.scrapeFeedLinks. -/
def scrapeFeedLinksS (doc : HtmlNode) (m : Metadata) : Metadata :=
  walkNodes feedVisit m doc

/-- Scraper.Scrape: nil document is an error; otherwise run the five passes in
order on a fresh result. -/
def ScraperScrape (s : Scraper) (doc : Option HtmlNode) : Except String Metadata :=
  match doc with
  | none => .error "HTML document cannot be nil"
  | some d =>
    let result := NewMetadata s.registry
    let result := scrapeMetaTagsS s.registry d result
    let result := scrapeTitleTagS s.registry d result
    let result := scrapeHeadingTagsS s.registry d result
    let result := scrapeLinkTagsS s.registry d result
    let result := scrapeFeedLinksS d result
    .ok result

mutual

/-- Preorder listing of a DOM tree: the order in which walkNodes visits nodes when
the visitor always continues. -/
def preorder : HtmlNode → List HtmlNode
  | .node t d a children => HtmlNode.node t d a children :: preorderList children

def preorderList : List HtmlNode → List HtmlNode
  | [] => []
  | c :: cs => preorder c ++ preorderList cs

end

/-! Concrete providers, nodes and documents used by the claim theorems. -/

/-- A provider with the given name and priority whose node predicates never fire;
it exercises registry construction only. -/
def plainProvider (nm : String) (pr : Int) : MetadataProvider :=
  { name := nm, priority := pr, canHandle := fun _ => false, scrape := fun _ => none,
    getValue := baseGetValue }

/-- Thirteen providers: priorities 1, then eleven ties at 2, then 1 again. -/
def tieProviders : List MetadataProvider :=
  [plainProvider "A" 1, plainProvider "B1" 2, plainProvider "B2" 2, plainProvider "B3" 2,
   plainProvider "B4" 2, plainProvider "B5" 2, plainProvider "B6" 2, plainProvider "B7" 2,
   plainProvider "B8" 2, plainProvider "B9" 2, plainProvider "B10" 2, plainProvider "B11" 2,
   plainProvider "M" 1]

/-- A provider capable of every node that never yields data. -/
def declineProvider : MetadataProvider :=
  { name := "p1", priority := 1, canHandle := fun _ => true, scrape := fun _ => none,
    getValue := baseGetValue }

/-- A provider capable of every node that always yields the pair (k, v). -/
def yieldProvider : MetadataProvider :=
  { name := "p2", priority := 2, canHandle := fun _ => true,
    scrape := fun _ => some { key := "k", value := "v" }, getValue := baseGetValue }

def bareMetaNode : HtmlNode :=
  HtmlNode.node NodeType.ElementNode "meta" [] []

def twoProviderRegistry : ProviderRegistry :=
  NewRegistry [declineProvider, yieldProvider]

/-- Modelled from the spec wording of the feed pass, stated per visited node: an
element link node whose rel equals alternate and whose href is non-empty yields
exactly one Feed record (href, type, title when present); every other node
yields nothing. -/
def feedRecordSpec (n : HtmlNode) : Option Feed :=
  if (n.type = NodeType.ElementNode ∧ n.data = "link") ∧ getAttribute n "rel" = "alternate"
      ∧ getAttribute n "href" ≠ "" then
    some { title := if getAttribute n "title" ≠ "" then some (getAttribute n "title") else none,
           type := getAttribute n "type", href := getAttribute n "href" }
  else none

def alternateLinkNode : HtmlNode :=
  HtmlNode.node NodeType.ElementNode "link"
    [("rel", "alternate"), ("type", "application/rss+xml"), ("title", "Feed"),
     ("href", "/f.xml")] []

def alternateLinkNoHrefNode : HtmlNode :=
  HtmlNode.node NodeType.ElementNode "link"
    [("rel", "alternate"), ("type", "application/atom+xml")] []

/-- A document with two identical alternate links and one alternate link without href. -/
def feedDoc : HtmlNode :=
  HtmlNode.node NodeType.DocumentNode "" []
    [HtmlNode.node NodeType.ElementNode "head" []
      [alternateLinkNode, alternateLinkNoHrefNode, alternateLinkNode]]

/-- The meta node carrying property og:x and content v, for parameter strings x, v. -/
def ogParamNode (x v : String) : HtmlNode :=
  HtmlNode.node NodeType.ElementNode "meta" [("property", ogPfx ++ x), ("content", v)] []

/-- The same node with the content attribute removed. -/
def ogParamNodeNoContent (x : String) : HtmlNode :=
  HtmlNode.node NodeType.ElementNode "meta" [("property", ogPfx ++ x)] []

/-- A meta node whose property is non-empty without the og: prefix while its name
carries the prefix: CanHandle matches through name, Scrape reads property. -/
def ogCornerNode : HtmlNode :=
  HtmlNode.node NodeType.ElementNode "meta"
    [("property", "x"), ("name", "og:y"), ("content", "v")] []

/-- Default-registry result holding OpenGraph title T and OtherElements firstHeading H. -/
def titleHeadingMetadata : Metadata :=
  ((NewMetadata (NewRegistry defaultProviders)).AddData "openGraph" "title" "T").AddData
    "other" "firstHeading" "H"

/-- Default-registry result holding only OtherElements firstHeading H. -/
def headingOnlyMetadata : Metadata :=
  (NewMetadata (NewRegistry defaultProviders)).AddData "other" "firstHeading" "H"

def divNode : HtmlNode :=
  HtmlNode.node NodeType.ElementNode "div" [] []

/-! Theorems settling the claims. -/

/-- C4: Scraper.Scrape on a nil (absent) document returns the nil-document error for
every registry; the Except value is an error, not an ok Metadata result, so the call
produces no partial result. -/
theorem scrape_nil_document_fails (r : ProviderRegistry) :
    ScraperScrape (NewScraper r) none = Except.error "HTML document cannot be nil" :=
  rfl

/-- C4 witness: the theorem applied to the default registry. -/
theorem scrape_nil_document_fails_witness :
    ScraperScrape (NewScraper (NewRegistry defaultProviders)) none =
      Except.error "HTML document cannot be nil" :=
  scrape_nil_document_fails (NewRegistry defaultProviders)

/-- C8: for every Metadata result, Favicon returns the resolved icon value, else the
resolved shortcut icon value, else the literal default /favicon.ico (a String, so a
value is always returned); a result with no icon or shortcut icon data yields
exactly /favicon.ico. -/
theorem favicon_fallback_chain :
    (∀ m : Metadata,
        m.Favicon =
          ((m.resolveValue "icon").getD ((m.resolveValue "shortcut icon").getD "/favicon.ico")))
  ∧ (NewMetadata (NewRegistry defaultProviders)).Favicon = "/favicon.ico" := by
  constructor
  · intro m
    rcases h1 : m.resolveValue "icon" with _ | v <;>
      rcases h2 : m.resolveValue "shortcut icon" with _ | w <;>
        simp [Metadata.Favicon, h1, h2]
  · rfl

/-- C9: Title returns the resolved title value and falls back to the resolved
firstHeading value only when title resolves to nothing; with OpenGraph title T and
OtherElements firstHeading H recorded it returns T, and with the title entry
removed it returns H. -/
theorem title_fallback_chain :
    (∀ m : Metadata,
        m.Title = ((m.resolveValue "title").orElse (fun _ => m.resolveValue "firstHeading")))
  ∧ titleHeadingMetadata.Title = some "T"
  ∧ headingOnlyMetadata.Title = some "H" := by
  refine ⟨fun m => ?_, rfl, rfl⟩
  rcases h : m.resolveValue "title" with _ | v <;> simp [Metadata.Title, h, Option.orElse]

/-- C10: each built-in provider rechecks CanHandle at the top of Scrape, so a node
the provider cannot handle always scrapes to nothing. -/
theorem builtin_scrape_requires_canHandle :
    (∀ n : HtmlNode, openGraphProvider.canHandle n = false → openGraphProvider.scrape n = none)
  ∧ (∀ n : HtmlNode, twitterProvider.canHandle n = false → twitterProvider.scrape n = none)
  ∧ (∀ n : HtmlNode,
      standardMetaProvider.canHandle n = false → standardMetaProvider.scrape n = none)
  ∧ (∀ n : HtmlNode,
      otherElementsProvider.canHandle n = false → otherElementsProvider.scrape n = none) := by
  refine ⟨fun n h => ?_, fun n h => ?_, fun n h => ?_, fun n h => ?_⟩
  · have hc : openGraphCanHandle n = false := h
    show openGraphScrape n = none
    simp [openGraphScrape, hc]
  · have hc : twitterCanHandle n = false := h
    show twitterScrape n = none
    simp [twitterScrape, hc]
  · have hc : standardMetaCanHandle n = false := h
    show standardMetaScrape n = none
    simp [standardMetaScrape, hc]
  · have hc : otherElementsCanHandle n = false := h
    show otherElementsScrape n = none
    simp [otherElementsScrape, hc]

/-- C10 witness: the four components applied to a div element, which no built-in
provider can handle. -/
theorem builtin_scrape_requires_canHandle_witness :
    openGraphProvider.scrape divNode = none
  ∧ twitterProvider.scrape divNode = none
  ∧ standardMetaProvider.scrape divNode = none
  ∧ otherElementsProvider.scrape divNode = none :=
  ⟨builtin_scrape_requires_canHandle.1 divNode rfl,
   builtin_scrape_requires_canHandle.2.1 divNode rfl,
   builtin_scrape_requires_canHandle.2.2.1 divNode rfl,
   builtin_scrape_requires_canHandle.2.2.2 divNode rfl⟩

/-- C2: registry construction sorts ascending by priority ([3,1,2] resolves to
[1,2,3]), but the sort is not stable: on the thirteen tieProviders the eleven
priority-2 providers enter in order B1..B11 and come out in order
B6,B3,B4,B5,B2,B7,B8,B9,B10,B11,B1, because sort.Slice is Go pdqsort, which
reorders equal elements once the range exceeds its insertion-sort threshold of 12. -/
theorem newRegistry_sort_not_stable :
    ((NewRegistry tieProviders).providers.map (fun p => (p.name, p.priority)) =
      [("A", 1), ("M", 1), ("B6", 2), ("B3", 2), ("B4", 2), ("B5", 2), ("B2", 2), ("B7", 2),
       ("B8", 2), ("B9", 2), ("B10", 2), ("B11", 2), ("B1", 2)])
  ∧ ((tieProviders.map (fun p => (p.name, p.priority))).filter (fun q => q.2 == 2) =
      [("B1", 2), ("B2", 2), ("B3", 2), ("B4", 2), ("B5", 2), ("B6", 2), ("B7", 2), ("B8", 2),
       ("B9", 2), ("B10", 2), ("B11", 2)])
  ∧ (((NewRegistry tieProviders).providers.map (fun p => (p.name, p.priority))).filter
        (fun q => q.2 == 2) ≠
      [("B1", 2), ("B2", 2), ("B3", 2), ("B4", 2), ("B5", 2), ("B6", 2), ("B7", 2), ("B8", 2),
       ("B9", 2), ("B10", 2), ("B11", 2)])
  ∧ ((NewRegistry [plainProvider "x" 3, plainProvider "y" 1, plainProvider "z" 2]).providers.map
        (fun p => p.priority) = [1, 2, 3]) := by
  refine ⟨by decide, by decide, by decide, by decide⟩

/-- Characterization of the ScrapeFromElement loop: it returns the first non-nil
Scrape result among capable providers, and returns nil exactly when every capable
provider scrapes to nil. -/
theorem scrapeFromList_characterization (node : HtmlNode) (l : List MetadataProvider) :
    scrapeFromList node l =
      l.findSome? (fun p =>
        if p.canHandle node then (p.scrape node).map (fun d => ScrapingResult.mk p d) else none)
  ∧ (scrapeFromList node l = none ↔
      ∀ p ∈ l, p.canHandle node = true → p.scrape node = none) := by
  induction l with
  | nil => simp [scrapeFromList, List.findSome?]
  | cons p rest ih =>
    by_cases hc : p.canHandle node = true
    · cases hs : p.scrape node with
      | some d =>
        refine ⟨by simp [scrapeFromList, List.findSome?, hc, hs], ?_, ?_⟩
        · intro habs
          simp [scrapeFromList, hc, hs] at habs
        · intro hall
          have hnone := hall p (List.mem_cons_self p rest) hc
          rw [hs] at hnone
          cases hnone
      | none =>
        have hstep : scrapeFromList node (p :: rest) = scrapeFromList node rest := by
          simp [scrapeFromList, hc, hs]
        refine ⟨?_, ?_⟩
        · simp [hstep, List.findSome?, hc, hs, ih.1]
        · rw [hstep, ih.2, List.forall_mem_cons]
          simp [hc, hs]
    · have hcf : p.canHandle node = false := by simpa using hc
      have hstep : scrapeFromList node (p :: rest) = scrapeFromList node rest := by
        simp [scrapeFromList, hcf]
      refine ⟨?_, ?_⟩
      · simp [hstep, List.findSome?, hcf, ih.1]
      · rw [hstep, ih.2, List.forall_mem_cons]
        simp [hcf]

/-- C1 counterexample: in a registry of two providers both capable of a bare meta
node, where the priority-1 provider scrapes to nothing, ScrapeFromElement does not
yield nothing — it falls through and returns the priority-2 provider result,
refuting the claim that the node is not offered to lower-priority providers. -/
theorem scrapeFromElement_falls_through_counterexample :
    (twoProviderRegistry.providers.map (fun p => (p.name, p.priority)) = [("p1", 1), ("p2", 2)])
  ∧ declineProvider.canHandle bareMetaNode = true
  ∧ declineProvider.scrape bareMetaNode = none
  ∧ yieldProvider.canHandle bareMetaNode = true
  ∧ ((ScrapeFromElement twoProviderRegistry bareMetaNode).map
       (fun res => (res.provider.name, res.data.key, res.data.value)) = some ("p2", "k", "v")) := by
  exact ⟨by decide, rfl, rfl, rfl, by decide⟩

/-- C1 amended: ScrapeFromElement tries providers in stored (ascending-priority)
order and returns the first capable provider whose Scrape yields data; a capable
provider whose Scrape yields nothing is skipped and the node is offered to
lower-priority providers, so the call yields nothing exactly when every capable
provider scrapes to nothing. -/
theorem scrapeFromElement_first_successful (r : ProviderRegistry) (node : HtmlNode) :
    ScrapeFromElement r node =
      r.providers.findSome? (fun p =>
        if p.canHandle node then (p.scrape node).map (fun d => ScrapingResult.mk p d) else none)
  ∧ (ScrapeFromElement r node = none ↔
      ∀ p ∈ r.providers, p.canHandle node = true → p.scrape node = none) :=
  scrapeFromList_characterization node r.providers

/-- BaseProvider.GetValue equals the head of the value list bound to the key. -/
theorem baseGetValue_head (key : String) (data : DataMap) :
    baseGetValue key data = (data.lookup key).bind List.head? := by
  cases h : data.lookup key with
  | none => simp [baseGetValue, h]
  | some values =>
    cases values with
    | nil => simp [baseGetValue, h]
    | cons v vs => simp [baseGetValue, h]

/-- Characterization of the ResolveValue loop: first non-nil GetValue among
providers whose name has a partition in the data. -/
theorem resolveFromList_characterization (key : String) (pd : ProviderData)
    (l : List MetadataProvider) :
    resolveFromList key pd l =
      l.findSome? (fun p => (pd.lookup p.name).bind (fun data => p.getValue key data)) := by
  induction l with
  | nil => simp [resolveFromList, List.findSome?]
  | cons p rest ih =>
    cases hlk : pd.lookup p.name with
    | none => simp [resolveFromList, List.findSome?, hlk, ih]
    | some data =>
      cases hv : p.getValue key data with
      | none => simp [resolveFromList, List.findSome?, hlk, hv, ih]
      | some v => simp [resolveFromList, List.findSome?, hlk, hv]

/-- C3: ResolveValue walks providers in stored (ascending-priority) order, consults
GetValue for each provider whose name has a partition, and returns the first
non-nil value; on the default registry with OpenGraph title A and Twitter title B
it returns A; and every built-in GetValue is first-element-of-list semantics. -/
theorem resolveValue_priority_chain :
    (∀ (r : ProviderRegistry) (key : String) (pd : ProviderData),
        ResolveValue r key pd =
          r.providers.findSome?
            (fun p => (pd.lookup p.name).bind (fun data => p.getValue key data)))
  ∧ (ResolveValue (NewRegistry defaultProviders) "title"
        [("openGraph", [("title", ["A"])]), ("twitter", [("title", ["B"])])] = some "A")
  ∧ (∀ (key : String) (data : DataMap),
        openGraphProvider.getValue key data = (data.lookup key).bind List.head?
      ∧ twitterProvider.getValue key data = (data.lookup key).bind List.head?
      ∧ standardMetaProvider.getValue key data = (data.lookup key).bind List.head?
      ∧ otherElementsProvider.getValue key data = (data.lookup key).bind List.head?) := by
  refine ⟨fun r key pd => resolveFromList_characterization key pd r.providers, by decide,
    fun key data => ⟨baseGetValue_head key data, baseGetValue_head key data,
      baseGetValue_head key data, baseGetValue_head key data⟩⟩

/-- One feed-pass visit appends exactly the Feed record the spec describes for the
node (possibly none) and always continues the walk. -/
theorem feedVisit_step (m : Metadata) (n : HtmlNode) :
    feedVisit m n = ({ m with feeds := m.feeds ++ (feedRecordSpec n).toList }, true) := by
  by_cases h1 : n.type = NodeType.ElementNode ∧ n.data = "link"
  · by_cases h2 : getAttribute n "rel" = "alternate"
    · by_cases h3 : getAttribute n "href" = ""
      · simp [feedVisit, feedRecordSpec, h1, h2, h3]
      · simp [feedVisit, feedRecordSpec, h1, h2, h3]
    · simp [feedVisit, feedRecordSpec, h1, h2]
  · simp [feedVisit, feedRecordSpec, h1]

mutual

/-- The feed-pass walk over one node appends the filterMap of the spec record over
the preorder node listing. -/
theorem walkFeed_metadata : ∀ (m : Metadata) (n : HtmlNode),
    walkNodes feedVisit m n =
      { m with feeds := m.feeds ++ (preorder n).filterMap feedRecordSpec }
  | m, HtmlNode.node t d a c => by
    rw [walkNodes, feedVisit_step]
    simp only [preorder]
    rw [walkFeedList_metadata _ c]
    cases hfr : feedRecordSpec (HtmlNode.node t d a c) <;>
      simp [hfr, List.filterMap_cons, List.append_assoc]

/-- The feed-pass walk over a child list appends the filterMap of the spec record
over the preorder listing of the list. -/
theorem walkFeedList_metadata : ∀ (m : Metadata) (l : List HtmlNode),
    walkNodesList feedVisit m l =
      { m with feeds := m.feeds ++ (preorderList l).filterMap feedRecordSpec }
  | m, [] => by simp [walkNodesList, preorderList]
  | m, c :: cs => by
    rw [walkNodesList, walkFeed_metadata m c, walkFeedList_metadata _ cs]
    simp [preorderList, List.filterMap_append, List.append_assoc]

end

/-- C5: the feed pass appends, in document (preorder) order and without
deduplication, exactly one Feed record per link element whose rel equals alternate
and whose href is non-empty (title taken when non-empty, type from the type
attribute); alternate links without href contribute nothing. On the concrete
document with two identical alternate links and one href-less alternate link,
exactly two identical Feed entries result. -/
theorem feed_pass_appends_alternate_links :
    (∀ (doc : HtmlNode) (m : Metadata),
        (scrapeFeedLinksS doc m).feeds = m.feeds ++ (preorder doc).filterMap feedRecordSpec)
  ∧ ((scrapeFeedLinksS feedDoc (NewMetadata (NewRegistry defaultProviders))).feeds =
      [{ title := some "Feed", type := "application/rss+xml", href := "/f.xml" },
       { title := some "Feed", type := "application/rss+xml", href := "/f.xml" }]) := by
  refine ⟨fun doc m => ?_, by decide⟩
  rw [scrapeFeedLinksS, walkFeed_metadata]

/-- If some requested name has no entry in the provider map, the LoadFromList loop
fails with an unknown-provider error, whatever was accumulated so far. -/
theorem loadFromListLoop_unknown (names : List String) (nm : String) :
    ∀ acc : List MetadataProvider, nm ∈ names → providerMap.lookup nm = none →
      ∃ e, loadFromListLoop acc names = Except.error e := by
  induction names with
  | nil =>
    intro acc h _
    cases h
  | cons hd tl ih =>
    intro acc hmem hnone
    cases hlk : providerMap.lookup hd with
    | none => exact ⟨"unknown provider: " ++ hd, by simp [loadFromListLoop, hlk]⟩
    | some p =>
      rcases List.mem_cons.mp hmem with heq | hmemtl
      · subst heq
        rw [hlk] at hnone
        cases hnone
      · have hrec := ih (acc ++ [p]) hmemtl hnone
        simpa [loadFromListLoop, hlk] using hrec

/-- C7: loading providers with the empty name list succeeds with the default four
providers, while any name list containing a name outside the known set makes both
LoadFromList and CreateScraperWithProviderNames fail (no provider list, no
scraper, no fallback to defaults); the concrete list with the single name invalid
fails with the unknown-provider error message. -/
theorem load_by_names_unknown_fails :
    (LoadFromList [] = Except.ok defaultProviders)
  ∧ (defaultProviders.map (fun p => (p.name, p.priority)) =
      [("openGraph", 1), ("twitter", 2), ("meta", 3), ("other", 4)])
  ∧ (LoadFromList ["invalid"] = Except.error "unknown provider: invalid")
  ∧ (CreateScraperWithProviderNames ["invalid"] =
      Except.error "unknown provider: invalid")
  ∧ ((CreateScraperWithProviderNames []).map
      (fun s => s.registry.providers.map (fun p => p.name)) =
      Except.ok ["openGraph", "twitter", "meta", "other"])
  ∧ (∀ (names : List String) (nm : String), nm ∈ names →
      nm ∉ (["openGraph", "twitter", "meta", "other"] : List String) →
      (LoadFromList names).isOk = false
        ∧ (CreateScraperWithProviderNames names).isOk = false) := by
  refine ⟨rfl, by decide, rfl, rfl, rfl, fun names nm hmem hnot => ?_⟩
  have hne : ¬(nm = "openGraph" ∨ nm = "twitter" ∨ nm = "meta" ∨ nm = "other") := by
    simpa using hnot
  rw [not_or, not_or, not_or] at hne
  have hb1 : (nm == "openGraph") = false := beq_eq_false_iff_ne.mpr hne.1
  have hb2 : (nm == "twitter") = false := beq_eq_false_iff_ne.mpr hne.2.1
  have hb3 : (nm == "meta") = false := beq_eq_false_iff_ne.mpr hne.2.2.1
  have hb4 : (nm == "other") = false := beq_eq_false_iff_ne.mpr hne.2.2.2
  have hlk : providerMap.lookup nm = none := by
    simp [providerMap, List.lookup, hb1, hb2, hb3, hb4]
  obtain ⟨e, he⟩ := loadFromListLoop_unknown names nm [] hmem hlk
  constructor
  · simp [LoadFromList, he, Except.isOk, Except.toBool]
  · simp [CreateScraperWithProviderNames, LoadFromList, he, Except.isOk, Except.toBool]

/-- C7 witness: the final component of the theorem applied to the concrete name
list containing only the name invalid. -/
theorem load_by_names_unknown_fails_witness :
    (LoadFromList ["invalid"]).isOk = false
      ∧ (CreateScraperWithProviderNames ["invalid"]).isOk = false :=
  load_by_names_unknown_fails.2.2.2.2.2 ["invalid"] "invalid" (by decide) (by decide)

/-- A string has every string it extends on the left as a Go prefix. -/
theorem goHasPfx_append (p s : String) : goHasPfx (p ++ s) p = true := by
  unfold goHasPfx
  rw [List.isPrefixOf_iff_prefix]
  show p.data <+: (p ++ s).data
  rw [String.data_append]
  exact ⟨s.data, rfl⟩

/-- Go TrimPrefix removes a left extension exactly. -/
theorem goTrimPfx_append (p s : String) : goTrimPfx (p ++ s) p = s := by
  unfold goTrimPfx
  rw [if_pos (goHasPfx_append p s)]
  show String.mk (List.drop p.data.length (p ++ s).data) = s
  rw [String.data_append, List.drop_left]

/-- A string starting with the og: prefix is never empty. -/
theorem ogPfx_append_ne_empty (x : String) : (ogPfx ++ x) ≠ "" := by
  intro h
  have hl : (ogPfx ++ x).length = ("" : String).length := congrArg String.length h
  rw [String.length_append] at hl
  have h3 : ogPfx.length = 3 := rfl
  have h0 : ("" : String).length = 0 := rfl
  omega

/-- C6 counterexample: on a meta node with property x, name og:y, content v, the
attribute CanHandle matched is name (property lacks the og: prefix), yet Scrape
pairs content with property and yields key x — not key y, the og:-stripped value
of the matched attribute. -/
theorem openGraph_scrape_matched_attr_counterexample :
    openGraphCanHandle ogCornerNode = true
  ∧ goHasPfx (getAttribute ogCornerNode "property") ogPfx = false
  ∧ goHasPfx (getAttribute ogCornerNode "name") ogPfx = true
  ∧ openGraphScrape ogCornerNode = some { key := "x", value := "v" }
  ∧ goTrimPfx (getAttribute ogCornerNode "name") ogPfx = "y"
  ∧ ({ key := "x", value := "v" } : ScrapedData) ≠ { key := "y", value := "v" } := by
  exact ⟨rfl, rfl, rfl, by decide, by decide, by decide⟩

/-- C6 amended: CanHandle matches exactly the meta element nodes whose property or
name attribute starts with og:. Scrape reads property and falls back to name only
when property is empty (regardless of which attribute made CanHandle match),
strips the og: prefix from that selected value, pairs it with content, and yields
nothing when the selected value or content is empty; in particular a meta node
with property og:x and non-empty content v yields key x and value v, and the same
node without content yields nothing. -/
theorem openGraph_canHandle_scrape_rule :
    (∀ n : HtmlNode, openGraphCanHandle n = true ↔
        (n.type = NodeType.ElementNode ∧ n.data = "meta" ∧
          (goHasPfx (getAttribute n "property") ogPfx = true
            ∨ goHasPfx (getAttribute n "name") ogPfx = true)))
  ∧ (∀ n : HtmlNode, openGraphCanHandle n = true →
      openGraphScrape n =
        (let sel := if getAttribute n "property" = "" then getAttribute n "name"
                    else getAttribute n "property"
         if sel = "" ∨ getAttribute n "content" = "" then none
         else some { key := goTrimPfx sel ogPfx, value := getAttribute n "content" }))
  ∧ (∀ x v : String, v ≠ "" →
      openGraphScrape (ogParamNode x v) = some { key := x, value := v })
  ∧ (∀ x : String, openGraphScrape (ogParamNodeNoContent x) = none) := by
  refine ⟨fun n => ?_, fun n h => ?_, fun x v hv => ?_, fun x => ?_⟩
  · by_cases ht : n.type = NodeType.ElementNode
    · by_cases hd : n.data = "meta"
      · simp [openGraphCanHandle, ht, hd]
      · simp [openGraphCanHandle, ht, hd]
    · simp [openGraphCanHandle, ht]
  · have hsc : openGraphScrape n = scrapeMetaTag n ogPfx := by
      simp [openGraphScrape, h]
    rw [hsc]
    by_cases hp : getAttribute n "property" = ""
    · by_cases hn : getAttribute n "name" = ""
      · simp [scrapeMetaTag, hp, hn]
      · by_cases hc : getAttribute n "content" = ""
        · simp [scrapeMetaTag, hp, hn, hc]
        · simp [scrapeMetaTag, hp, hn, hc]
    · by_cases hc : getAttribute n "content" = ""
      · simp [scrapeMetaTag, hp, hc]
      · simp [scrapeMetaTag, hp, hc]
  · have h1 : getAttribute (ogParamNode x v) "property" = ogPfx ++ x := rfl
    have h2 : getAttribute (ogParamNode x v) "content" = v := rfl
    have hch : openGraphCanHandle (ogParamNode x v) = true := by
      have h0 : openGraphCanHandle (ogParamNode x v) =
          (goHasPfx (ogPfx ++ x) ogPfx || goHasPfx "" ogPfx) := rfl
      rw [h0, goHasPfx_append]
      simp
    have hsc : openGraphScrape (ogParamNode x v) = scrapeMetaTag (ogParamNode x v) ogPfx := by
      simp [openGraphScrape, hch]
    rw [hsc]
    simp [scrapeMetaTag, h1, h2, hv, ogPfx_append_ne_empty x, goTrimPfx_append]
  · have h1 : getAttribute (ogParamNodeNoContent x) "property" = ogPfx ++ x := rfl
    have h2 : getAttribute (ogParamNodeNoContent x) "content" = "" := rfl
    have hch : openGraphCanHandle (ogParamNodeNoContent x) = true := by
      have h0 : openGraphCanHandle (ogParamNodeNoContent x) =
          (goHasPfx (ogPfx ++ x) ogPfx || goHasPfx "" ogPfx) := rfl
      rw [h0, goHasPfx_append]
      simp
    have hsc : openGraphScrape (ogParamNodeNoContent x) =
        scrapeMetaTag (ogParamNodeNoContent x) ogPfx := by
      simp [openGraphScrape, hch]
    rw [hsc]
    simp [scrapeMetaTag, h1, h2]

/-- C6 witness: the selection rule applied to the corner node, and the generic
og:x family applied at x = title, v = Hello. -/
theorem openGraph_canHandle_scrape_rule_witness :
    openGraphScrape (ogParamNode "title" "Hello") = some { key := "title", value := "Hello" }
  ∧ openGraphScrape ogCornerNode =
      (let sel := if getAttribute ogCornerNode "property" = "" then getAttribute ogCornerNode "name"
                  else getAttribute ogCornerNode "property"
       if sel = "" ∨ getAttribute ogCornerNode "content" = "" then none
       else some { key := goTrimPfx sel ogPfx, value := getAttribute ogCornerNode "content" }) :=
  ⟨openGraph_canHandle_scrape_rule.2.2.1 "title" "Hello" (by decide),
   openGraph_canHandle_scrape_rule.2.1 ogCornerNode (by decide)⟩

end Glypto
